import Mathlib

/-!
Verification of the lirc2hass event-forwarding bridge
(`src/lirc2hass/lirc2hass.py`) against its natural-language specification.

The Python program is shallowly embedded: each class method becomes a pure
Lean function over an explicit state record, exceptions become an error kind
returned in `Except`, the LIRC socket becomes a finite list of read outcomes,
the websocket becomes a finite list of receive outcomes plus a log of sent
messages, and wall-clock floats become rationals.
-/

namespace Lirc2hass

/-- Exception kinds raised by the program, mirroring the Python exception
classes that the control flow distinguishes:
`APIError`, `LircDisconnected` (both defined in the source), `IndexError`
(from list indexing in `send_event`), builtin `TimeoutError` (raised by
`websockets` `recv(timeout=...)` when the bounded wait elapses; it is *not*
a subclass of `WebSocketException`), `WebSocketException` (base class of
`websockets` protocol/connection errors incl. `ConnectionClosedError`), and
`OSError` (socket errors). -/
inductive PyExc
  | apiError
  | lircDisconnected
  | indexError
  | timeoutError
  | wsException
  | osError
deriving DecidableEq

/-- First position of `sep` in the character list, splitting it into the
part before and the part after. Helper for `pySplit`. -/
def splitFirst (sep : Char) : List Char → Option (List Char × List Char)
  | [] => none
  | c :: cs =>
    if c = sep then some ([], cs)
    else
      match splitFirst sep cs with
      | none => none
      | some (pre, post) => some (c :: pre, post)

/-- Python `str.split(sep, maxsplit)` for a one-character separator:
at most `maxsplit` splits, empty fields kept, `"".split(" ") == [""]`. -/
def pySplit (sep : Char) : Nat → List Char → List (List Char)
  | 0, s => [s]
  | m + 1, s =>
    match splitFirst sep s with
    | none => [s]
    | some (pre, post) => pre :: pySplit sep m post

/-- Python `str(event)` applied to a `bytes` value: the text `b'...'`.
Faithful for frames made of printable ASCII without quotes or backslashes
(LIRC frames are hex digits, decimal digits, key names and spaces); `repr`
escaping of other bytes never adds or removes a space, so the field
structure under `pySplit ' '` is unaffected either way. -/
def str_of_event (event : List Char) : List Char :=
  'b' :: '\'' :: (event ++ ['\''])

/-- Python `round(x, 3)`. Modelled as exact rational rounding of `x * 1000`
to an integer; every argument produced by `get_backoff_delay`'s callers is
an exact multiple of `1/1000`, where Python's float rounding is exact and
tie-breaking never arises. -/
def round3 (q : ℚ) : ℚ := ((round (q * 1000) : ℤ) : ℚ) / 1000

/-- `get_backoff_delay(retry_count, delay_max)` from the source.
`jitter` models the draw `random.randint(0, 1000)`, so the subtracted
jitter term `jitter / 1000` ranges over `[0, 1]`.  Note the source applies
no floor at 0: the rounded difference is returned as is. -/
def get_backoff_delay (retry_count : ℕ) (delay_max : ℚ) (jitter : ℕ) : ℚ :=
  round3 (min delay_max ((2 : ℚ) ^ retry_count) - (jitter : ℚ) / 1000)

lemma round3_int_div (z : ℤ) : round3 ((z : ℚ) / 1000) = (z : ℚ) / 1000 := by
  unfold round3
  have h : ((z : ℚ) / 1000) * 1000 = (z : ℚ) := by
    field_simp
  rw [h, round_intCast]

lemma get_backoff_delay_eq (rc n j : ℕ) :
    get_backoff_delay rc (n : ℚ) j = ((min n (2 ^ rc) : ℕ) : ℚ) - (j : ℚ) / 1000 := by
  unfold get_backoff_delay
  have h1 : min (n : ℚ) ((2 : ℚ) ^ rc) = ((min n (2 ^ rc) : ℕ) : ℚ) := by
    push_cast
    ring
  rw [h1]
  have h2 : ((min n (2 ^ rc) : ℕ) : ℚ) - (j : ℚ) / 1000
      = ((((min n (2 ^ rc) : ℕ) : ℤ) * 1000 - (j : ℤ) : ℤ) : ℚ) / 1000 := by
    push_cast
    ring
  rw [h2, round3_int_div]

end Lirc2hass


namespace Lirc2hass

/-- C2 counterexample.  The claim asserts `0 ≤ delay ≤ ceiling` for *every*
ceiling > 0 and jitter draw in [0, 1], with a floor at 0 for negative
values.  The source applies no floor: with ceiling `1/2 > 0`, retry count 0
and the maximal jitter draw `randint(0,1000) = 1000` (i.e. jitter `1`), the
returned delay is `-1/2 < 0`. -/
theorem claim_C2_counterexample :
    get_backoff_delay 0 (1 / 2) 1000 = -(1 / 2) ∧ get_backoff_delay 0 (1 / 2) 1000 < 0 := by
  have h : get_backoff_delay 0 (1 / 2) 1000 = round3 ((((-500 : ℤ) : ℚ)) / 1000) := by
    unfold get_backoff_delay
    norm_num
  rw [round3_int_div] at h
  norm_num at h
  exact ⟨h, by rw [h]; norm_num⟩

/-- C2 (amended): for every retry count, every *integer* ceiling ≥ 1 (as
all callers guarantee via the CLI's positive-integer validation of
`max_reconnect_delay`) and every jitter draw `j/1000` with `j ≤ 1000`,
the delay computed by `get_backoff_delay` satisfies `0 ≤ delay ≤ ceiling`.
No explicit floor at 0 exists in the source, and none is needed on this
domain. -/
theorem claim_C2 (rc n j : ℕ) (hn : 1 ≤ n) (hj : j ≤ 1000) :
    0 ≤ get_backoff_delay rc (n : ℚ) j ∧ get_backoff_delay rc (n : ℚ) j ≤ (n : ℚ) := by
  rw [get_backoff_delay_eq]
  have hM : 1 ≤ min n (2 ^ rc) := le_min hn Nat.one_le_two_pow
  have hMq : (1 : ℚ) ≤ ((min n (2 ^ rc) : ℕ) : ℚ) := by exact_mod_cast hM
  have hMn : ((min n (2 ^ rc) : ℕ) : ℚ) ≤ (n : ℚ) := by
    exact_mod_cast min_le_left n (2 ^ rc)
  have hjq : (j : ℚ) ≤ 1000 := by exact_mod_cast hj
  have hj0 : (0 : ℚ) ≤ (j : ℚ) := by positivity
  constructor
  · have : (j : ℚ) / 1000 ≤ 1 := by linarith
    linarith
  · have : (0 : ℚ) ≤ (j : ℚ) / 1000 := by positivity
    linarith

/-- C2 witness: concrete instance of the amended bound at retry count 3,
ceiling 64, jitter draw 500. -/
theorem claim_C2_witness :
    0 ≤ get_backoff_delay 3 ((64 : ℕ) : ℚ) 500
      ∧ get_backoff_delay 3 ((64 : ℕ) : ℚ) 500 ≤ ((64 : ℕ) : ℚ) :=
  claim_C2 3 64 500 (by norm_num) (by norm_num)

end Lirc2hass

namespace Lirc2hass

/-- State held by `LircClient.__init__`: the debounce threshold
`_min_repeat_time_ms`, the `api_connected` flag, the LIRC socket handle
(`_lirc_sock`, modelled by whether it is open) and the debouncer memory
`_last_event_timestamp` (initially 0).  String configuration fields
(`_hass_base_uri`, `_lirc_sock_path`, `_hass_auth_token`) carry no control
flow and are omitted. -/
structure LircBase where
  min_repeat_time_ms : ℚ
  api_connected : Bool
  sock : Bool
  last_event_timestamp : ℚ
deriving DecidableEq

/-- Access to the shared `LircClient` fields of a client variant, modelling
attribute access on the Python base class. -/
class HasBase (σ : Type) where
  base : σ → LircBase
  setBase : σ → LircBase → σ

/-- One outcome of `LircClient.get_event` (`self._lirc_sock.recv(...)`):
either the read raises `OSError`, or it returns a byte frame `data`
(possibly empty, meaning the peer closed) observed at wall-clock time
`now` seconds (the `time.time()` call in `send_event`). -/
inductive SrcItem
  | readErr
  | ev (data : List Char) (now : ℚ)
deriving DecidableEq

/-- `LircClient.send_event`.  Parses `str(event).split(" ", 4)`, reads
fields 1 (repeat count) and 2 (key name) — an out-of-range index raises
`IndexError` — then either suppresses a repeat arriving within
`_min_repeat_time_ms` of the last accepted event, or updates
`_last_event_timestamp` and calls the variant's `send_upstream_event`
(passed in as `sendUp`, modelling dynamic dispatch).  The source's
`event_timedelta_ms = 0` special case for the first event only affects the
log line and is omitted. -/
def send_event {σ : Type} [HasBase σ]
    (sendUp : σ → List Char → σ × Except PyExc Unit)
    (st : σ) (event : List Char) (now : ℚ) : σ × Except PyExc Unit :=
  let b := HasBase.base st
  let event_timedelta_ms : ℚ := (now - b.last_event_timestamp) * 1000
  let event_info := pySplit ' ' 4 (str_of_event event)
  match event_info[1]?, event_info[2]? with
  | some f1, some lirc_key =>
    if f1 ≠ ['0'] ∧ event_timedelta_ms < b.min_repeat_time_ms then
      (st, .ok ())
    else
      sendUp (HasBase.setBase st { b with last_event_timestamp := now }) lirc_key
  | _, _ => (st, .error .indexError)

/-- `LircClient.event_loop`: read events until an exception.  `OSError`
from the read and an empty read both raise `LircDisconnected`; a non-empty
frame goes through `send_event`, whose exceptions propagate.  The loop is
driven by a finite prefix `src` of the socket's read outcomes; the result
carries the final client state, the unconsumed suffix of `src`, and the
exception that ended the loop (`none` if the prefix was exhausted with the
loop still running). -/
def event_loop {σ : Type} [HasBase σ]
    (sendUp : σ → List Char → σ × Except PyExc Unit) :
    σ → List SrcItem → σ × List SrcItem × Option PyExc
  | st, [] => (st, [], none)
  | st, .readErr :: rest => (st, rest, some .lircDisconnected)
  | st, .ev data now :: rest =>
    if data = [] then (st, rest, some .lircDisconnected)
    else
      match send_event sendUp st data now with
      | (st', .ok _) => event_loop sendUp st' rest
      | (st', .error e) => (st', rest, some e)

/-- Outcome of one `requests` POST in `HaRestLircClient.send_upstream_event`:
an HTTP response with a status code, or a `requests` exception (connection
failure etc.). -/
inductive RestOut
  | status (code : ℕ)
  | reqExc
deriving DecidableEq

/-- `HaRestLircClient`: the base state plus the `requests` session handle
and, as environment, the list of outcomes of successive POSTs.  `posted`
records the key of every POST issued (the observable network effect). -/
structure RestClient extends LircBase where
  rest_session : Bool
  responses : List RestOut
  posted : List (List Char)
deriving DecidableEq

instance instHasBaseRest : HasBase RestClient :=
  ⟨RestClient.toLircBase, fun st b => { st with toLircBase := b }⟩

@[simp] lemma base_rest (st : RestClient) : HasBase.base st = st.toLircBase := rfl

@[simp] lemma setBase_rest (st : RestClient) (b : LircBase) :
    HasBase.setBase st b = { st with toLircBase := b } := rfl

/-- `HaRestLircClient.send_upstream_event`: POST the key, then
`raise_for_status()`; any `requests.exceptions.RequestException` (including
the `HTTPError` raised for status ≥ 400) is converted to `APIError`.  An
exhausted `responses` environment stands for a 200 response. -/
def rest_send_upstream_event (st : RestClient) (lirc_key : List Char) :
    RestClient × Except PyExc Unit :=
  let st := { st with posted := st.posted ++ [lirc_key] }
  match st.responses with
  | [] => (st, .ok ())
  | r :: rest =>
    let st := { st with responses := rest }
    match r with
    | .status code => if 400 ≤ code then (st, .error .apiError) else (st, .ok ())
    | .reqExc => (st, .error .apiError)

/-- `HaRestLircClient.start_event_loop`: open the `requests` session, run
the base `start_event_loop` — which sets `api_connected = True` and enters
`event_loop`.  The trailing `self.rest_session = None` after the `with`
block is unreachable (the event loop only ever exits by raising), so it is
not modelled; an exhausted finite trace is a snapshot taken inside the
still-running loop. -/
def rest_start_event_loop (st : RestClient) (src : List SrcItem) :
    RestClient × List SrcItem × Option PyExc :=
  event_loop rest_send_upstream_event
    { st with
      rest_session := true
      toLircBase := { st.toLircBase with api_connected := true } } src

/-- `LircClient.connect` (success case): open the socket unless it is
already open (then only a warning is logged and nothing is re-opened). -/
def lirc_connect {σ : Type} [HasBase σ] (st : σ) : σ :=
  let b := HasBase.base st
  if b.sock then st else HasBase.setBase st { b with sock := true }

/-- `LircClient.disconnect`: close and clear the socket handle if set,
no-op otherwise. -/
def lirc_disconnect {σ : Type} [HasBase σ] (st : σ) : σ :=
  let b := HasBase.base st
  if b.sock then HasBase.setBase st { b with sock := false } else st

/-- Supervisor state local to `main_loop`: the client, the
`lirc_connected` flag, both retry counters, and the configured
`max_reconnect_delay`. -/
structure SupState (σ : Type) where
  client : σ
  lirc_connected : Bool
  lirc_retry : ℕ
  api_retry : ℕ
  max_reconnect_delay : ℚ

/-- The `if not lirc_connected:` block at the top of each `main_loop`
iteration.  `connOk` is the environment's verdict on `socket.connect`
(`false` = `OSError`), `j` the jitter draw for the backoff sleep.
`inl` = proceed to the event loop; `inr` = connect failed: sleep the
returned delay, bump `lirc_retry`, and `continue`. -/
def connect_phase {σ : Type} [HasBase σ] (s : SupState σ) (connOk : Bool) (j : ℕ) :
    SupState σ ⊕ (SupState σ × ℚ) :=
  if s.lirc_connected then .inl s
  else if connOk then
    .inl { s with client := lirc_connect s.client, lirc_connected := true, lirc_retry := 0 }
  else
    .inr ({ s with lirc_retry := s.lirc_retry + 1 },
      get_backoff_delay s.lirc_retry s.max_reconnect_delay j)

/-- Result of one `main_loop` iteration: loop again (recording the backoff
delay slept, if any), propagate a fatal exception out of `main_loop`
(after `lirc_client.disconnect()`), or run out of the finite event trace
while the event loop is still blocked reading. -/
inductive IterOut (σ : Type)
  | next (s : SupState σ) (src : List SrcItem) (slept : Option ℚ)
  | fatal (s : SupState σ) (src : List SrcItem) (e : PyExc)
  | stalled (s : SupState σ) (src : List SrcItem)

/-- The `try: lirc_client.start_event_loop() except ...` block of
`main_loop`. `sel` is the client's `start_event_loop` (dynamic dispatch). -/
def run_phase {σ : Type} [HasBase σ]
    (sel : σ → List SrcItem → σ × List SrcItem × Option PyExc)
    (s : SupState σ) (src : List SrcItem) (j : ℕ) : IterOut σ :=
  let r := sel s.client src
  match r.2.2 with
  | none => .stalled { s with client := r.1 } r.2.1
  | some .lircDisconnected =>
    .next { s with client := lirc_disconnect r.1, lirc_connected := false } r.2.1 none
  | some .apiError =>
    let b := HasBase.base r.1
    let api_retry0 := if b.api_connected then 0 else s.api_retry
    let c := if b.api_connected then HasBase.setBase r.1 { b with api_connected := false }
      else r.1
    .next { s with client := c, api_retry := api_retry0 + 1 } r.2.1
      (some (get_backoff_delay api_retry0 s.max_reconnect_delay j))
  | some e => .fatal { s with client := lirc_disconnect r.1 } r.2.1 e

/-- One full iteration of the `while True:` body of `main_loop`. -/
def main_iter {σ : Type} [HasBase σ]
    (sel : σ → List SrcItem → σ × List SrcItem × Option PyExc)
    (s : SupState σ) (src : List SrcItem) (connOk : Bool) (j : ℕ) : IterOut σ :=
  match connect_phase s connOk j with
  | .inr (s', d) => .next s' src (some d)
  | .inl s' => run_phase sel s' src j

/-- Outcome of running `main_loop` for finitely many iterations. -/
inductive RunOut (σ : Type)
  | more (s : SupState σ) (src : List SrcItem)
  | fatal (s : SupState σ) (e : PyExc)
  | stalled (s : SupState σ)

/-- Iterate `main_iter` over a list of per-iteration environment inputs
(connect verdict, jitter draw). -/
def main_run {σ : Type} [HasBase σ]
    (sel : σ → List SrcItem → σ × List SrcItem × Option PyExc) :
    SupState σ → List SrcItem → List (Bool × ℕ) → RunOut σ
  | s, src, [] => .more s src
  | s, src, (connOk, j) :: steps =>
    match main_iter sel s src connOk j with
    | .next s' src' _ => main_run sel s' src' steps
    | .fatal s' _ e => .fatal s' e
    | .stalled s' _ => .stalled s'

/-- The supervisor state reached by a finite run. -/
def RunOut.state {σ : Type} : RunOut σ → SupState σ
  | .more s _ => s
  | .fatal s _ => s
  | .stalled s => s

/-- The exception a finite run propagated out of `main_loop`, if any. -/
def RunOut.err {σ : Type} : RunOut σ → Option PyExc
  | .fatal _ e => some e
  | _ => none

/-- `main()`: an exception propagating out of `main_loop` other than
`KeyboardInterrupt`/`ExitApp` (both signal-driven, not modelled) is logged
and the process exits with code 1. -/
def main_exit_code {σ : Type} (r : RunOut σ) : Option ℕ :=
  match r with
  | .fatal _ _ => some 1
  | _ => none

end Lirc2hass

namespace Lirc2hass

lemma rest_send_upstream_effect (st : RestClient) (key : List Char) :
    (rest_send_upstream_event st key).1.toLircBase = st.toLircBase
  ∧ (rest_send_upstream_event st key).1.posted = st.posted ++ [key] := by
  unfold rest_send_upstream_event
  cases st.responses with
  | nil => exact ⟨rfl, rfl⟩
  | cons r rest =>
    cases r with
    | status code =>
      by_cases hc : 400 ≤ code <;> simp [hc]
    | reqExc => exact ⟨rfl, rfl⟩

lemma rest_send_event_pres (st : RestClient) (ev : List Char) (now : ℚ) :
    (send_event rest_send_upstream_event st ev now).1.sock = st.sock
  ∧ (send_event rest_send_upstream_event st ev now).1.min_repeat_time_ms
      = st.min_repeat_time_ms := by
  unfold send_event
  cases h1 : (pySplit ' ' 4 (str_of_event ev))[1]? with
  | none => simp [h1]
  | some f1 =>
    cases h2 : (pySplit ' ' 4 (str_of_event ev))[2]? with
    | none => simp [h1, h2]
    | some key =>
      simp only [h1, h2, base_rest, setBase_rest]
      split
      · exact ⟨rfl, rfl⟩
      · have h := rest_send_upstream_effect
          { st with toLircBase := { st.toLircBase with last_event_timestamp := now } } key
        constructor
        · rw [show (rest_send_upstream_event _ key).1.sock
              = (rest_send_upstream_event _ key).1.toLircBase.sock from rfl, h.1]
        · rw [show (rest_send_upstream_event _ key).1.min_repeat_time_ms
              = (rest_send_upstream_event _ key).1.toLircBase.min_repeat_time_ms from rfl, h.1]

lemma rest_event_loop_pres (src : List SrcItem) :
    ∀ st : RestClient,
      (event_loop rest_send_upstream_event st src).1.sock = st.sock
    ∧ (event_loop rest_send_upstream_event st src).1.min_repeat_time_ms
        = st.min_repeat_time_ms := by
  induction src with
  | nil => intro st; exact ⟨rfl, rfl⟩
  | cons item rest ih =>
    intro st
    cases item with
    | readErr => exact ⟨rfl, rfl⟩
    | ev data now =>
      by_cases hd : data = []
      · simp [event_loop, hd]
      · have hp := rest_send_event_pres st data now
        rcases hsend : send_event rest_send_upstream_event st data now with ⟨st', r⟩
        rw [hsend] at hp
        cases r with
        | ok u =>
          have hih := ih st'
          simp only [event_loop, if_neg hd, hsend]
          exact ⟨hih.1.trans hp.1, hih.2.trans hp.2⟩
        | error e =>
          simp only [event_loop, if_neg hd, hsend]
          exact hp

/-- A frame whose text form has fewer than three space-delimited fields
makes `send_event` raise `IndexError` (at the `event_info[2]` access, or
already at `event_info[1]`), before any debounce decision or send. -/
lemma send_event_short_frame {σ : Type} [HasBase σ]
    (sendUp : σ → List Char → σ × Except PyExc Unit)
    (st : σ) (frame : List Char) (now : ℚ)
    (hfields : (pySplit ' ' 4 (str_of_event frame)).length < 3) :
    send_event sendUp st frame now = (st, .error .indexError) := by
  have h2 : (pySplit ' ' 4 (str_of_event frame))[2]? = none := by
    apply List.getElem?_eq_none
    omega
  unfold send_event
  cases h1 : (pySplit ' ' 4 (str_of_event frame))[1]? <;> simp [h1, h2]

end Lirc2hass

namespace Lirc2hass

/-- A well-formed LIRC frame, first press (repeat count "0"). -/
def frameOK : List Char := "00 0 KEY_OK alias remote".toList

/-- A well-formed LIRC frame with the autorepeat flag set (repeat count "1"). -/
def frameRep : List Char := "00 1 KEY_OK alias remote".toList

/-- A malformed frame whose text form has only two space-delimited fields. -/
def frameBad : List Char := "00 0".toList

/-- A freshly constructed REST client: `_last_event_timestamp = 0`,
default `min_repeat_time_ms` 740, socket open, event loop not yet entered. -/
def freshRest : RestClient :=
  { min_repeat_time_ms := 740, api_connected := false, sock := true,
    last_event_timestamp := 0, rest_session := true, responses := [], posted := [] }

/-- C3 counterexample.  The claim asserts the very first event processed by
a fresh debouncer is accepted *for every timestamp `now`*, regardless of
the repeat flag.  The source initialises `_last_event_timestamp` to the
sentinel `0` (not `None`/∞) and compares `(now − 0) * 1000` against
`min_repeat_time_ms` *before* the first-event special case, so a
repeat-flagged first frame observed at wall-clock `now = 1/2` s (elapsed
500 ms < 740 ms) is suppressed: nothing is forwarded and the timestamp is
not updated. -/
theorem claim_C3_counterexample :
    (send_event rest_send_upstream_event freshRest frameRep (1 / 2)).1.posted = []
  ∧ (send_event rest_send_upstream_event freshRest frameRep (1 / 2)).1.last_event_timestamp = 0
  ∧ (send_event rest_send_upstream_event freshRest frameRep (1 / 2)).2 = .ok () := by
  have h1 : (pySplit ' ' 4 (str_of_event frameRep))[1]? = some ['1'] := rfl
  have h2 : (pySplit ' ' 4 (str_of_event frameRep))[2]? = some "KEY_OK".toList := rfl
  have hcond : ['1'] ≠ ['0']
      ∧ ((1 / 2 : ℚ) - freshRest.toLircBase.last_event_timestamp) * 1000
          < freshRest.toLircBase.min_repeat_time_ms := by
    refine ⟨by decide, ?_⟩
    norm_num [freshRest]
  have hr : send_event rest_send_upstream_event freshRest frameRep (1 / 2)
      = (freshRest, .ok ()) := by
    unfold send_event
    simp only [h1, h2, base_rest]
    rw [if_pos hcond]
  rw [hr]
  exact ⟨rfl, rfl, rfl⟩

/-- C3 (amended): the very first event processed by a fresh debouncer
(`_last_event_timestamp = 0`) is accepted and forwarded regardless of its
repeat flag, provided the frame is well-formed (≥ 3 fields) and the
wall-clock timestamp satisfies `now * 1000 ≥ min_repeat_time_ms` — true of
any realistic `time.time()` value.  Forwarding is observed as the key being
posted upstream and `_last_event_timestamp` being set to `now`. -/
theorem claim_C3 (st : RestClient) (frame : List Char) (now : ℚ)
    (hfresh : st.last_event_timestamp = 0)
    (_hmin : 0 < st.min_repeat_time_ms)
    (hnow : st.min_repeat_time_ms ≤ now * 1000)
    (hfields : 3 ≤ (pySplit ' ' 4 (str_of_event frame)).length) :
    ∃ key, (pySplit ' ' 4 (str_of_event frame))[2]? = some key
      ∧ (send_event rest_send_upstream_event st frame now).1.last_event_timestamp = now
      ∧ (send_event rest_send_upstream_event st frame now).1.posted = st.posted ++ [key] := by
  cases h1 : (pySplit ' ' 4 (str_of_event frame))[1]? with
  | none =>
    exfalso
    have := List.getElem?_eq_none_iff.mp h1
    omega
  | some f1 =>
    cases h2 : (pySplit ' ' 4 (str_of_event frame))[2]? with
    | none =>
      exfalso
      have := List.getElem?_eq_none_iff.mp h2
      omega
    | some key =>
      have hcond : ¬(f1 ≠ ['0']
          ∧ (now - st.toLircBase.last_event_timestamp) * 1000
              < st.toLircBase.min_repeat_time_ms) := by
        rintro ⟨-, hlt⟩
        rw [show st.toLircBase.last_event_timestamp = st.last_event_timestamp from rfl,
          hfresh] at hlt
        rw [sub_zero] at hlt
        exact absurd hnow (not_le.mpr hlt)
      have hred : send_event rest_send_upstream_event st frame now
          = rest_send_upstream_event
              { st with toLircBase := { st.toLircBase with last_event_timestamp := now } }
              key := by
        unfold send_event
        simp only [h1, h2, base_rest, setBase_rest]
        rw [if_neg hcond]
      have heff := rest_send_upstream_effect
        { st with toLircBase := { st.toLircBase with last_event_timestamp := now } } key
      refine ⟨key, rfl, ?_, ?_⟩
      · rw [hred]
        rw [show (rest_send_upstream_event _ key).1.last_event_timestamp
            = (rest_send_upstream_event _ key).1.toLircBase.last_event_timestamp from rfl,
          heff.1]
      · rw [hred]
        exact heff.2

/-- C3 witness: the amended statement at a fresh client, the
repeat-flagged frame, and wall-clock time 800 s. -/
theorem claim_C3_witness :
    ∃ key, (pySplit ' ' 4 (str_of_event frameRep))[2]? = some key
      ∧ (send_event rest_send_upstream_event freshRest frameRep 800).1.last_event_timestamp
          = 800
      ∧ (send_event rest_send_upstream_event freshRest frameRep 800).1.posted
          = freshRest.posted ++ [key] :=
  claim_C3 freshRest frameRep 800 rfl (by norm_num [freshRest])
    (by norm_num [freshRest]) (by decide)

end Lirc2hass

namespace Lirc2hass

lemma lirc_disconnect_sock (st : RestClient) : (lirc_disconnect st).sock = false := by
  cases h : st.toLircBase.sock <;> simp [lirc_disconnect, h]

lemma connect_phase_connected {σ : Type} [HasBase σ] (s : SupState σ) (connOk : Bool)
    (j : ℕ) (h : s.lirc_connected = true) : connect_phase s connOk j = .inl s := by
  simp [connect_phase, h]

/-- C10: a non-empty frame whose text form has fewer than three
space-delimited fields makes `send_event` raise `IndexError`, which is
neither `LircDisconnected` nor `APIError`; `main_loop`'s catch-all branch
disconnects the LIRC socket and re-raises, and `main()` exits with code 1. -/
theorem claim_C10 (s : SupState RestClient) (frame : List Char) (now : ℚ)
    (srcRest : List SrcItem) (connOk : Bool) (j : ℕ)
    (hconn : s.lirc_connected = true)
    (hne : frame ≠ [])
    (hfields : (pySplit ' ' 4 (str_of_event frame)).length < 3) :
    main_iter rest_start_event_loop s (.ev frame now :: srcRest) connOk j
      = .fatal
          { s with client :=
              lirc_disconnect (rest_start_event_loop s.client (.ev frame now :: srcRest)).1 }
          srcRest .indexError
    ∧ (lirc_disconnect (rest_start_event_loop s.client (.ev frame now :: srcRest)).1).sock
        = false
    ∧ main_exit_code
        (main_run rest_start_event_loop s (.ev frame now :: srcRest) [(connOk, j)])
          = some 1 := by
  have hsendAll : ∀ st : RestClient,
      send_event rest_send_upstream_event st frame now = (st, .error .indexError) :=
    fun st => send_event_short_frame rest_send_upstream_event st frame now hfields
  have hstart : rest_start_event_loop s.client (.ev frame now :: srcRest)
      = ((rest_start_event_loop s.client (.ev frame now :: srcRest)).1,
          srcRest, some .indexError) := by
    simp only [rest_start_event_loop, event_loop, if_neg hne, hsendAll]
  have h21 := congrArg
    (fun p : RestClient × List SrcItem × Option PyExc => p.2.1) hstart
  have h22 := congrArg
    (fun p : RestClient × List SrcItem × Option PyExc => p.2.2) hstart
  dsimp only at h21 h22
  have hiter : main_iter rest_start_event_loop s (.ev frame now :: srcRest) connOk j
      = .fatal
          { s with client :=
              lirc_disconnect (rest_start_event_loop s.client (.ev frame now :: srcRest)).1 }
          srcRest .indexError := by
    simp only [main_iter, connect_phase_connected s connOk j hconn, run_phase, h21, h22]
  refine ⟨hiter, lirc_disconnect_sock _, ?_⟩
  simp only [main_run, hiter, main_exit_code]

/-- Supervisor state used by concrete witness scenarios: REST client fresh,
socket open, both retry counters 0, ceiling 64. -/
def supW : SupState RestClient :=
  { client := freshRest, lirc_connected := true, lirc_retry := 0, api_retry := 0,
    max_reconnect_delay := 64 }

/-- C10 witness: the malformed two-field frame `"00 0"` crashes the
supervisor with `IndexError` and exit code 1. -/
theorem claim_C10_witness :
    main_iter rest_start_event_loop supW (.ev frameBad 5 :: []) true 0
      = .fatal
          { supW with client :=
              lirc_disconnect (rest_start_event_loop supW.client (.ev frameBad 5 :: [])).1 }
          [] .indexError
    ∧ (lirc_disconnect (rest_start_event_loop supW.client (.ev frameBad 5 :: [])).1).sock
        = false
    ∧ main_exit_code
        (main_run rest_start_event_loop supW (.ev frameBad 5 :: []) [(true, 0)]) = some 1 :=
  claim_C10 supW frameBad 5 [] true 0 rfl (by decide) (by decide)

end Lirc2hass

namespace Lirc2hass

lemma lirc_disconnect_last (st : RestClient) :
    (lirc_disconnect st).last_event_timestamp = st.last_event_timestamp := by
  cases h : st.toLircBase.sock <;> simp [lirc_disconnect, h]

lemma lirc_connect_sock (st : RestClient) : (lirc_connect st).sock = true := by
  cases h : st.toLircBase.sock <;> simp [lirc_connect, h]

lemma lirc_connect_last (st : RestClient) :
    (lirc_connect st).last_event_timestamp = st.last_event_timestamp := by
  cases h : st.toLircBase.sock <;> simp [lirc_connect, h]

lemma rest_start_event_loop_sock (st : RestClient) (src : List SrcItem) :
    (rest_start_event_loop st src).1.sock = st.sock := by
  unfold rest_start_event_loop
  exact (rest_event_loop_pres src _).1

/-- C6: when `start_event_loop` raises `APIError`, `main_loop`'s handler
leaves `_last_event_timestamp` exactly as the event loop left it, does not
disconnect (or reconnect) the LIRC socket — which the event loop itself
also never touches — re-sends nothing, sleeps the API backoff delay, and
loops again with `lirc_connected` still true.  Stated for the REST client;
the handler is transport-agnostic. -/
theorem claim_C6 (s : SupState RestClient) (src src' : List SrcItem) (c' : RestClient)
    (connOk : Bool) (j : ℕ)
    (hconn : s.lirc_connected = true)
    (hrun : rest_start_event_loop s.client src = (c', src', some .apiError)) :
    ∃ s2, main_iter rest_start_event_loop s src connOk j
        = .next s2 src'
            (some (get_backoff_delay (if c'.api_connected then 0 else s.api_retry)
              s.max_reconnect_delay j))
      ∧ s2.lirc_connected = true
      ∧ s2.client.last_event_timestamp = c'.last_event_timestamp
      ∧ s2.client.sock = c'.sock
      ∧ s2.client.posted = c'.posted
      ∧ c'.sock = s.client.sock := by
  have hsock : c'.sock = s.client.sock := by
    have h := rest_start_event_loop_sock s.client src
    rw [hrun] at h
    exact h
  have hiter0 : main_iter rest_start_event_loop s src connOk j
      = run_phase rest_start_event_loop s src j := by
    simp only [main_iter, connect_phase_connected s connOk j hconn]
  cases hapi : c'.toLircBase.api_connected with
  | false =>
    refine ⟨{ s with client := c', api_retry := s.api_retry + 1 },
      ?_, hconn, rfl, rfl, rfl, hsock⟩
    rw [hiter0]
    simp only [run_phase, hrun, base_rest, setBase_rest, hapi]
    simp
  | true =>
    refine ⟨{ s with
        client := { c' with toLircBase := { c'.toLircBase with api_connected := false } }
        api_retry := 0 + 1 },
      ?_, hconn, rfl, rfl, rfl, hsock⟩
    rw [hiter0]
    simp only [run_phase, hrun, base_rest, setBase_rest, hapi]
    simp

/-- Concrete C6 scenario: one accepted key whose POST raises a `requests`
exception. -/
def supW6 : SupState RestClient :=
  { supW with client := { freshRest with responses := [.reqExc] } }

/-- C6 witness: the concrete scenario instantiating the theorem. -/
theorem claim_C6_witness :
    ∃ s2, main_iter rest_start_event_loop supW6 [.ev frameOK 5] true 0
        = .next s2 []
            (some (get_backoff_delay
              (if (rest_start_event_loop supW6.client [.ev frameOK 5]).1.api_connected then 0
                else supW6.api_retry)
              supW6.max_reconnect_delay 0))
      ∧ s2.lirc_connected = true
      ∧ s2.client.last_event_timestamp
          = (rest_start_event_loop supW6.client [.ev frameOK 5]).1.last_event_timestamp
      ∧ s2.client.sock = (rest_start_event_loop supW6.client [.ev frameOK 5]).1.sock
      ∧ s2.client.posted = (rest_start_event_loop supW6.client [.ev frameOK 5]).1.posted
      ∧ (rest_start_event_loop supW6.client [.ev frameOK 5]).1.sock = supW6.client.sock :=
  claim_C6 supW6 [.ev frameOK 5] [] _ true 0 rfl rfl

/-- C7: when the event loop raises `LircDisconnected`, the supervisor
disconnects and later reconnects only the LIRC socket: the upstream
`api_retry` counter and the debouncer's `_last_event_timestamp` survive
both the disconnect handling and the subsequent successful
`connect_phase`. -/
theorem claim_C7 (s : SupState RestClient) (src src' : List SrcItem) (c' : RestClient)
    (connOk : Bool) (j j2 : ℕ)
    (hconn : s.lirc_connected = true)
    (hrun : rest_start_event_loop s.client src = (c', src', some .lircDisconnected)) :
    ∃ s1, main_iter rest_start_event_loop s src connOk j = .next s1 src' none
      ∧ s1.api_retry = s.api_retry
      ∧ s1.client.last_event_timestamp = c'.last_event_timestamp
      ∧ s1.client.api_connected = c'.api_connected
      ∧ s1.lirc_connected = false
      ∧ s1.client.sock = false
      ∧ ∃ s2, connect_phase s1 true j2 = .inl s2
          ∧ s2.api_retry = s.api_retry
          ∧ s2.client.last_event_timestamp = c'.last_event_timestamp
          ∧ s2.client.sock = true
          ∧ s2.lirc_connected = true := by
  have hdisc_last := lirc_disconnect_last c'
  have hdisc_api : (lirc_disconnect c').api_connected = c'.api_connected := by
    cases h : c'.toLircBase.sock <;> simp [lirc_disconnect, h]
  refine ⟨{ s with client := lirc_disconnect c', lirc_connected := false },
    ?_, rfl, hdisc_last, hdisc_api, rfl, lirc_disconnect_sock c', ?_⟩
  · simp only [main_iter, connect_phase_connected s connOk j hconn, run_phase, hrun]
  · refine ⟨{ s with
        client := lirc_connect (lirc_disconnect c')
        lirc_connected := true
        lirc_retry := 0 }, ?_, rfl, ?_, lirc_connect_sock _, rfl⟩
    · simp [connect_phase]
    · rw [lirc_connect_last, hdisc_last]

/-- Concrete C7 scenario: the first socket read raises `OSError`. -/
def supW7 : SupState RestClient := supW

/-- C7 witness: the concrete scenario instantiating the theorem. -/
theorem claim_C7_witness :
    ∃ s1, main_iter rest_start_event_loop supW7 [.readErr] true 0 = .next s1 [] none
      ∧ s1.api_retry = supW7.api_retry
      ∧ s1.client.last_event_timestamp
          = (rest_start_event_loop supW7.client [.readErr]).1.last_event_timestamp
      ∧ s1.client.api_connected = (rest_start_event_loop supW7.client [.readErr]).1.api_connected
      ∧ s1.lirc_connected = false
      ∧ s1.client.sock = false
      ∧ ∃ s2, connect_phase s1 true 7 = .inl s2
          ∧ s2.api_retry = supW7.api_retry
          ∧ s2.client.last_event_timestamp
              = (rest_start_event_loop supW7.client [.readErr]).1.last_event_timestamp
          ∧ s2.client.sock = true
          ∧ s2.lirc_connected = true :=
  claim_C7 supW7 [.readErr] [] _ true 0 7 rfl rfl

end Lirc2hass

namespace Lirc2hass

/-- The key name `send_event` would extract from a frame:
field 2 of `str(event).split(" ", 4)`, if present. -/
def parsedKey (d : List Char) : Option (List Char) :=
  (pySplit ' ' 4 (str_of_event d))[2]?

/-- Number of data frames in a source trace whose parsed key is `k`. -/
def srcKeyCount (k : List Char) : List SrcItem → ℕ
  | [] => 0
  | .readErr :: rest => srcKeyCount k rest
  | .ev d _ :: rest => (if parsedKey d = some k then 1 else 0) + srcKeyCount k rest

/-- Number of POSTs of key `k` in a posted-keys log. -/
def countKey (k : List Char) : List (List Char) → ℕ
  | [] => 0
  | x :: rest => (if x = k then 1 else 0) + countKey k rest

lemma countKey_append (k : List Char) (a b : List (List Char)) :
    countKey k (a ++ b) = countKey k a + countKey k b := by
  induction a with
  | nil => simp [countKey]
  | cons x rest ih => simp [countKey, ih]; omega

lemma rest_send_event_posted (st : RestClient) (ev : List Char) (now : ℚ) :
    (send_event rest_send_upstream_event st ev now).1.posted = st.posted
  ∨ ∃ key, parsedKey ev = some key
      ∧ (send_event rest_send_upstream_event st ev now).1.posted = st.posted ++ [key] := by
  unfold send_event
  cases h1 : (pySplit ' ' 4 (str_of_event ev))[1]? with
  | none => left; simp [h1]
  | some f1 =>
    cases h2 : (pySplit ' ' 4 (str_of_event ev))[2]? with
    | none => left; simp [h1, h2]
    | some key =>
      simp only [h1, h2, base_rest, setBase_rest]
      split
      · left; rfl
      · right
        exact ⟨key, h2, (rest_send_upstream_effect _ key).2⟩

lemma count_bound_send (k : List Char) (st : RestClient) (ev : List Char) (now : ℚ) :
    countKey k (send_event rest_send_upstream_event st ev now).1.posted
      ≤ countKey k st.posted + (if parsedKey ev = some k then 1 else 0) := by
  rcases rest_send_event_posted st ev now with h | ⟨key, hk, h⟩
  · rw [h]; exact Nat.le_add_right _ _
  · rw [h, countKey_append]
    by_cases hkey : key = k
    · subst hkey
      simp [countKey, hk]
    · simp [countKey, hkey]

lemma rest_event_loop_count (k : List Char) (src : List SrcItem) :
    ∀ st : RestClient,
      countKey k (event_loop rest_send_upstream_event st src).1.posted
        + srcKeyCount k (event_loop rest_send_upstream_event st src).2.1
      ≤ countKey k st.posted + srcKeyCount k src := by
  induction src with
  | nil => intro st; simp [event_loop, srcKeyCount]
  | cons item rest ih =>
    intro st
    cases item with
    | readErr => simp [event_loop, srcKeyCount]
    | ev d now =>
      by_cases hd : d = []
      · simp only [event_loop, if_pos hd, srcKeyCount]
        omega
      · have hb := count_bound_send k st d now
        rcases hsend : send_event rest_send_upstream_event st d now with ⟨st', r⟩
        rw [hsend] at hb
        dsimp only at hb
        cases r with
        | ok u =>
          have hih := ih st'
          simp only [event_loop, if_neg hd, hsend, srcKeyCount]
          omega
        | error e =>
          simp only [event_loop, if_neg hd, hsend, srcKeyCount]
          omega

lemma rest_start_event_loop_count (k : List Char) (st : RestClient) (src : List SrcItem) :
    countKey k (rest_start_event_loop st src).1.posted
      + srcKeyCount k (rest_start_event_loop st src).2.1
    ≤ countKey k st.posted + srcKeyCount k src := by
  unfold rest_start_event_loop
  exact rest_event_loop_count k src _

lemma lirc_connect_posted (st : RestClient) : (lirc_connect st).posted = st.posted := by
  cases h : st.toLircBase.sock <;> simp [lirc_connect, h]

lemma lirc_disconnect_posted (st : RestClient) :
    (lirc_disconnect st).posted = st.posted := by
  cases h : st.toLircBase.sock <;> simp [lirc_disconnect, h]

lemma connect_phase_inr_posted (s : SupState RestClient) (connOk : Bool) (j : ℕ)
    (s1 : SupState RestClient) (d : ℚ) (h : connect_phase s connOk j = .inr (s1, d)) :
    s1.client.posted = s.client.posted := by
  unfold connect_phase at h
  by_cases hlc : s.lirc_connected = true
  · rw [if_pos hlc] at h
    simp at h
  · rw [if_neg hlc] at h
    by_cases hc : connOk = true
    · rw [if_pos hc] at h
      simp at h
    · rw [if_neg hc] at h
      cases h
      rfl

lemma connect_phase_inl_posted (s : SupState RestClient) (connOk : Bool) (j : ℕ)
    (s1 : SupState RestClient) (h : connect_phase s connOk j = .inl s1) :
    s1.client.posted = s.client.posted := by
  unfold connect_phase at h
  by_cases hlc : s.lirc_connected = true
  · rw [if_pos hlc] at h
    cases h
    rfl
  · rw [if_neg hlc] at h
    by_cases hc : connOk = true
    · rw [if_pos hc] at h
      cases h
      exact lirc_connect_posted s.client
    · rw [if_neg hc] at h
      cases h

lemma rest_main_iter_bound (k : List Char) (s : SupState RestClient) (src : List SrcItem)
    (connOk : Bool) (j : ℕ) :
    (match main_iter rest_start_event_loop s src connOk j with
      | .next s' src' _ => countKey k s'.client.posted + srcKeyCount k src'
      | .fatal s' _ _ => countKey k s'.client.posted
      | .stalled s' _ => countKey k s'.client.posted)
    ≤ countKey k s.client.posted + srcKeyCount k src := by
  unfold main_iter
  rcases hcp : connect_phase s connOk j with s1 | ⟨s1, d⟩
  · have hposted := connect_phase_inl_posted s connOk j s1 hcp
    rcases hrun : rest_start_event_loop s1.client src with ⟨c', src', ex⟩
    have hpot : countKey k c'.posted + srcKeyCount k src'
        ≤ countKey k s.client.posted + srcKeyCount k src := by
      have h0 := rest_start_event_loop_count k s1.client src
      rw [hrun] at h0
      dsimp only at h0
      rw [hposted] at h0
      exact h0
    cases ex with
    | none =>
      simp only [run_phase, hrun]
      exact le_trans (Nat.le_add_right _ _) hpot
    | some e =>
      cases e with
      | apiError =>
        simp only [run_phase, hrun, base_rest, setBase_rest]
        split
        · exact hpot
        · exact hpot
      | lircDisconnected =>
        simp only [run_phase, hrun]
        rw [lirc_disconnect_posted]
        exact hpot
      | indexError =>
        simp only [run_phase, hrun]
        rw [lirc_disconnect_posted]
        exact le_trans (Nat.le_add_right _ _) hpot
      | timeoutError =>
        simp only [run_phase, hrun]
        rw [lirc_disconnect_posted]
        exact le_trans (Nat.le_add_right _ _) hpot
      | wsException =>
        simp only [run_phase, hrun]
        rw [lirc_disconnect_posted]
        exact le_trans (Nat.le_add_right _ _) hpot
      | osError =>
        simp only [run_phase, hrun]
        rw [lirc_disconnect_posted]
        exact le_trans (Nat.le_add_right _ _) hpot
  · have hposted := connect_phase_inr_posted s connOk j s1 d hcp
    show countKey k s1.client.posted + srcKeyCount k src
      ≤ countKey k s.client.posted + srcKeyCount k src
    rw [hposted]

lemma rest_main_run_count (k : List Char) :
    ∀ (steps : List (Bool × ℕ)) (s : SupState RestClient) (src : List SrcItem),
      countKey k ((main_run rest_start_event_loop s src steps).state.client.posted)
        ≤ countKey k s.client.posted + srcKeyCount k src := by
  intro steps
  induction steps with
  | nil =>
    intro s src
    simp only [main_run, RunOut.state]
    exact Nat.le_add_right _ _
  | cons step rest ih =>
    intro s src
    rcases step with ⟨connOk, j⟩
    have hb := rest_main_iter_bound k s src connOk j
    rcases hit : main_iter rest_start_event_loop s src connOk j with ⟨s', src', d⟩
      | ⟨s', src', e⟩ | ⟨s', src'⟩ <;> rw [hit] at hb
    · have hb2 : countKey k s'.client.posted + srcKeyCount k src'
          ≤ countKey k s.client.posted + srcKeyCount k src := hb
      have hih := ih s' src'
      simp only [main_run, hit]
      exact le_trans hih hb2
    · have hb2 : countKey k s'.client.posted
          ≤ countKey k s.client.posted + srcKeyCount k src := hb
      simp only [main_run, hit, RunOut.state]
      exact hb2
    · have hb2 : countKey k s'.client.posted
          ≤ countKey k s.client.posted + srcKeyCount k src := hb
      simp only [main_run, hit, RunOut.state]
      exact hb2

end Lirc2hass

namespace Lirc2hass

/-- C9: (1) whenever `send_event` propagates `APIError` from the upstream
send, `_last_event_timestamp` has already been set to the event's
timestamp (line order: the assignment precedes `send_upstream_event`) and
the key was posted exactly once by that attempt; (2) across any supervised
run, the number of POSTs of a key `k` never exceeds the POSTs already made
plus the number of remaining source frames carrying `k` — so a frame,
failed or not, is consumed exactly when processed and is never retried or
redelivered after the API recovers. -/
theorem claim_C9 :
    (∀ (st : RestClient) (ev : List Char) (now : ℚ),
        (send_event rest_send_upstream_event st ev now).2 = .error .apiError →
          (send_event rest_send_upstream_event st ev now).1.last_event_timestamp = now
          ∧ ∃ key, parsedKey ev = some key
              ∧ (send_event rest_send_upstream_event st ev now).1.posted
                  = st.posted ++ [key])
  ∧ (∀ (steps : List (Bool × ℕ)) (s : SupState RestClient) (src : List SrcItem)
        (k : List Char),
        countKey k ((main_run rest_start_event_loop s src steps).state.client.posted)
          ≤ countKey k s.client.posted + srcKeyCount k src) := by
  constructor
  · intro st ev now h
    revert h
    unfold send_event
    cases h1 : (pySplit ' ' 4 (str_of_event ev))[1]? with
    | none =>
      intro h
      simp [h1] at h
    | some f1 =>
      cases h2 : (pySplit ' ' 4 (str_of_event ev))[2]? with
      | none =>
        intro h
        simp [h1, h2] at h
      | some key =>
        simp only [h1, h2, base_rest, setBase_rest]
        split
        · intro h
          simp at h
        · intro _
          have heff := rest_send_upstream_effect
            { st with toLircBase := { st.toLircBase with last_event_timestamp := now } } key
          refine ⟨?_, key, h2, heff.2⟩
          rw [show (rest_send_upstream_event _ key).1.last_event_timestamp
              = (rest_send_upstream_event _ key).1.toLircBase.last_event_timestamp from rfl,
            heff.1]
  · intro steps s src k
    exact rest_main_run_count k steps s src

/-- C9 witness: the concrete failed-POST scenario and the count bound on
its one-iteration run. -/
theorem claim_C9_witness :
    ((send_event rest_send_upstream_event supW6.client frameOK 5).1.last_event_timestamp = 5
      ∧ ∃ key, parsedKey frameOK = some key
          ∧ (send_event rest_send_upstream_event supW6.client frameOK 5).1.posted
              = supW6.client.posted ++ [key])
  ∧ countKey "KEY_OK".toList
        ((main_run rest_start_event_loop supW6 [.ev frameOK 5] [(true, 0)]).state.client.posted)
      ≤ countKey "KEY_OK".toList supW6.client.posted
          + srcKeyCount "KEY_OK".toList [.ev frameOK 5] :=
  ⟨claim_C9.1 supW6.client frameOK 5 rfl,
    claim_C9.2 [(true, 0)] supW6 [.ev frameOK 5] "KEY_OK".toList⟩

end Lirc2hass

namespace Lirc2hass

/-- A parsed JSON websocket message, reduced to the fields the client
inspects: `msg.get("type")` and `msg.get("id")`. -/
structure WsMsg where
  type : Option String
  id : Option Nat
deriving DecidableEq

/-- One outcome of `self.ws.recv(timeout=...)` (followed by `json.loads`):
a parsed message, the builtin `TimeoutError` raised when the bounded wait
elapses, or a `ConnectionClosed` error (a `WebSocketException`). -/
inductive RecvOut
  | msg (m : WsMsg)
  | timeoutErr
  | connClosed
deriving DecidableEq

/-- A message the client passed to `self.ws.send`, reduced to its type and
correlation id (payload fields carry no control flow). -/
structure SentMsg where
  type : String
  id : Option Nat
deriving DecidableEq

/-- `HaWsLircClient`: base state plus the websocket handle flag (`self.ws`)
and the correlation counter `ws_next_id` (initialised to 1 in `__init__`
and never reset afterwards).  The connection is modelled by `inbox` (the
messages/errors the server will deliver on the current connection, in
order) and `sent` (the messages sent on it); `future` holds the servers'
delivery streams for subsequent connections. -/
structure WsClient extends LircBase where
  ws : Bool
  ws_next_id : Nat
  inbox : List RecvOut
  sent : List SentMsg
  future : List (List RecvOut)
deriving DecidableEq

instance instHasBaseWs : HasBase WsClient :=
  ⟨WsClient.toLircBase, fun st b => { st with toLircBase := b }⟩

@[simp] lemma base_ws (st : WsClient) : HasBase.base st = st.toLircBase := rfl

@[simp] lemma setBase_ws (st : WsClient) (b : LircBase) :
    HasBase.setBase st b = { st with toLircBase := b } := rfl

/-- The `while True:` filter loop of `ws_recv_msg(msg_type=t)`: read
messages, discarding any whose type is not `t`, until a match, a timeout
(`TimeoutError`) or a connection error (`WebSocketException`).  An empty
inbox stands for a server that sends nothing more before the timeout
(every call site passes `timeout=DEF_TIMEOUT`). -/
def recv_filter_loop (t : String) : List RecvOut → List RecvOut × Except PyExc WsMsg
  | [] => ([], .error .timeoutError)
  | .timeoutErr :: rest => (rest, .error .timeoutError)
  | .connClosed :: rest => (rest, .error .wsException)
  | .msg m :: rest =>
    if m.type = some t then (rest, .ok m)
    else recv_filter_loop t rest

/-- The `while True:` correlation loop of `ws_send_msg` with
`ws_recv_msg`'s type filter inlined (`self.ws` is unchanged between the
repeated calls, so its re-check never fires): discard messages of the
wrong type, and messages of the right type whose `id` differs from the one
just sent, until the correlated response, a timeout, or a connection
error. -/
def recv_correlated_loop (t : String) (target : Option Nat) :
    List RecvOut → List RecvOut × Except PyExc WsMsg
  | [] => ([], .error .timeoutError)
  | .timeoutErr :: rest => (rest, .error .timeoutError)
  | .connClosed :: rest => (rest, .error .wsException)
  | .msg m :: rest =>
    if m.type = some t then
      if m.id = target then (rest, .ok m)
      else recv_correlated_loop t target rest
    else recv_correlated_loop t target rest

/-- `HaWsLircClient.ws_recv_msg`: raises `ConnectionClosedError` (a
`WebSocketException`) when no websocket is set; with no type filter,
returns the next message; with a filter, runs the discard loop. -/
def ws_recv_msg (st : WsClient) (msg_type : Option String) :
    WsClient × Except PyExc WsMsg :=
  if st.ws = false then (st, .error .wsException)
  else
    match msg_type with
    | none =>
      match st.inbox with
      | [] => (st, .error .timeoutError)
      | .msg m :: rest => ({ st with inbox := rest }, .ok m)
      | .timeoutErr :: rest => ({ st with inbox := rest }, .error .timeoutError)
      | .connClosed :: rest => ({ st with inbox := rest }, .error .wsException)
    | some t =>
      let r := recv_filter_loop t st.inbox
      ({ st with inbox := r.1 }, r.2)

/-- `HaWsLircClient.ws_send_msg`: allocate the next correlation id when
`include_id`, send the message, and when a `response_msg_type` is expected
run the correlation loop; its errors propagate unconverted. -/
def ws_send_msg (st : WsClient) (msg_type : String) (response_msg_type : Option String)
    (include_id : Bool) : WsClient × Except PyExc (Option WsMsg) :=
  if st.ws = false then (st, .error .wsException)
  else
    let msg_id : Option Nat := if include_id then some st.ws_next_id else none
    let st := if include_id then { st with ws_next_id := st.ws_next_id + 1 } else st
    let st := { st with sent := st.sent ++ [⟨msg_type, msg_id⟩] }
    match response_msg_type with
    | none => (st, .ok (if include_id then some ⟨none, msg_id⟩ else none))
    | some rt =>
      let r := recv_correlated_loop rt msg_id st.inbox
      match r.2 with
      | .ok m => ({ st with inbox := r.1 }, .ok (some m))
      | .error e => ({ st with inbox := r.1 }, .error e)

/-- `HaWsLircClient.send_upstream_event`: send `fire_event` and wait for
the correlated `result`; only `websockets.exceptions.WebSocketException`
is converted to `APIError` — the builtin `TimeoutError` raised when the
bounded response wait elapses escapes this handler. -/
def ws_send_upstream_event (st : WsClient) (_lirc_key : List Char) :
    WsClient × Except PyExc Unit :=
  match ws_send_msg st "fire_event" (some "result") true with
  | (st', .ok _) => (st', .ok ())
  | (st', .error .wsException) => (st', .error .apiError)
  | (st', .error e) => (st', .error e)

/-- `HaWsLircClient.ws_do_auth`: wait for `auth_required`, send the `auth`
message without an id, read the next message, and require type `auth_ok`;
any other type raises `APIError`. -/
def ws_do_auth (st : WsClient) : WsClient × Except PyExc Unit :=
  match ws_recv_msg st (some "auth_required") with
  | (st1, .error e) => (st1, .error e)
  | (st1, .ok _) =>
    match ws_send_msg st1 "auth" none false with
    | (st2, .error e) => (st2, .error e)
    | (st2, .ok _) =>
      match ws_recv_msg st2 none with
      | (st3, .error e) => (st3, .error e)
      | (st3, .ok m) =>
        if m.type = some "auth_ok" then (st3, .ok ())
        else (st3, .error .apiError)

/-- The state right after `with ws_connect(...) as ws: self.ws = ws`: a
fresh connection whose delivery stream is the next element of `future`;
nothing has been sent on it and `ws_next_id` is *not* reset. -/
def ws_connect_state (st : WsClient) : WsClient :=
  match st.future with
  | [] => { st with ws := true, inbox := [], sent := [] }
  | ib :: futs => { st with ws := true, inbox := ib, sent := [], future := futs }

/-- `HaWsLircClient.start_event_loop`: connect, authenticate, then run the
base `start_event_loop` (set `api_connected = True`, enter `event_loop`).
The `self.ws = None` after the `with` block is unreachable (the loop only
exits by raising) and is not modelled. -/
def ws_start_event_loop (st : WsClient) (src : List SrcItem) :
    WsClient × List SrcItem × Option PyExc :=
  match ws_do_auth (ws_connect_state st) with
  | (st1, .error e) => (st1, src, some e)
  | (st1, .ok _) =>
    event_loop ws_send_upstream_event
      { st1 with toLircBase := { st1.toLircBase with api_connected := true } } src

end Lirc2hass

namespace Lirc2hass

lemma ws_connect_state_ws (st : WsClient) : (ws_connect_state st).ws = true := by
  unfold ws_connect_state
  cases st.future <;> rfl

lemma ws_connect_state_sent (st : WsClient) : (ws_connect_state st).sent = [] := by
  unfold ws_connect_state
  cases st.future <;> rfl

lemma ws_connect_state_base (st : WsClient) :
    (ws_connect_state st).toLircBase = st.toLircBase := by
  unfold ws_connect_state
  cases st.future <;> rfl

lemma ws_connect_state_id (st : WsClient) :
    (ws_connect_state st).ws_next_id = st.ws_next_id := by
  unfold ws_connect_state
  cases st.future <;> rfl

lemma ws_do_auth_bad (st0 : WsClient) (mA m : WsMsg) (ib2 : List RecvOut)
    (hws : st0.ws = true)
    (hreq : recv_filter_loop "auth_required" st0.inbox = (.msg m :: ib2, .ok mA))
    (hbad : ¬ m.type = some "auth_ok") :
    ws_do_auth st0
      = ({ st0 with inbox := ib2, sent := st0.sent ++ [⟨"auth", none⟩] },
          .error .apiError) := by
  unfold ws_do_auth ws_recv_msg ws_send_msg
  simp [hws, hreq, hbad]

/-- C5: when session start receives any message whose type is not
`auth_ok` immediately after the auth message is sent, `ws_do_auth` raises
`APIError`, `start_event_loop` never reaches the base event loop: the
source trace is untouched (no event pulled), the only message sent on the
session is the id-less `auth` message (no `fire_event`), and
`api_connected` is never set. -/
theorem claim_C5 (st : WsClient) (src : List SrcItem) (mA m : WsMsg) (ib2 : List RecvOut)
    (hreq : recv_filter_loop "auth_required" (ws_connect_state st).inbox
        = (.msg m :: ib2, .ok mA))
    (hbad : ¬ m.type = some "auth_ok") :
    ws_start_event_loop st src
      = ({ ws_connect_state st with inbox := ib2, sent := [⟨"auth", none⟩] }, src,
          some .apiError)
    ∧ (ws_start_event_loop st src).1.sent = [⟨"auth", none⟩]
    ∧ (ws_start_event_loop st src).1.api_connected = st.api_connected
    ∧ (ws_start_event_loop st src).2.1 = src := by
  have hauth := ws_do_auth_bad (ws_connect_state st) mA m ib2 (ws_connect_state_ws st)
    hreq hbad
  rw [ws_connect_state_sent st] at hauth
  simp only [List.nil_append] at hauth
  have heq : ws_start_event_loop st src
      = ({ ws_connect_state st with inbox := ib2, sent := [⟨"auth", none⟩] }, src,
          some .apiError) := by
    unfold ws_start_event_loop
    rw [hauth]
  refine ⟨heq, ?_, ?_, ?_⟩
  · rw [heq]
  · rw [heq]
    show (ws_connect_state st).toLircBase.api_connected = st.toLircBase.api_connected
    rw [ws_connect_state_base]
  · rw [heq]

/-- A freshly constructed websocket client (`__init__`): `ws_next_id = 1`,
no websocket yet; the server of its first connection sends `auth_required`
and then an `auth_invalid` failure. -/
def wsFresh : WsClient :=
  { min_repeat_time_ms := 740, api_connected := false, sock := true,
    last_event_timestamp := 0, ws := false, ws_next_id := 1, inbox := [], sent := [],
    future := [[.msg ⟨some "auth_required", none⟩, .msg ⟨some "auth_invalid", none⟩]] }

/-- C5 witness: the concrete failed-auth session. -/
theorem claim_C5_witness :
    ws_start_event_loop wsFresh [.ev frameOK 5]
      = ({ ws_connect_state wsFresh with
            inbox := [], sent := [⟨"auth", none⟩] }, [.ev frameOK 5], some .apiError)
    ∧ (ws_start_event_loop wsFresh [.ev frameOK 5]).1.sent = [⟨"auth", none⟩]
    ∧ (ws_start_event_loop wsFresh [.ev frameOK 5]).1.api_connected
        = wsFresh.api_connected
    ∧ (ws_start_event_loop wsFresh [.ev frameOK 5]).2.1 = [.ev frameOK 5] :=
  claim_C5 wsFresh [.ev frameOK 5] ⟨some "auth_required", none⟩
    ⟨some "auth_invalid", none⟩ [] rfl (by decide)

end Lirc2hass

namespace Lirc2hass

/-- A websocket client whose first session authenticates successfully and
whose correlated-response wait then times out (`recv` raises the builtin
`TimeoutError` after `DEF_TIMEOUT`). -/
def wsC1 : WsClient :=
  { wsFresh with future :=
      [[.msg ⟨some "auth_required", none⟩, .msg ⟨some "auth_ok", none⟩, .timeoutErr]] }

/-- The same scenario, except the wait fails with `ConnectionClosed`
(a `WebSocketException`) instead of a timeout. -/
def wsC1b : WsClient :=
  { wsFresh with future :=
      [[.msg ⟨some "auth_required", none⟩, .msg ⟨some "auth_ok", none⟩, .connClosed]] }

/-- Supervisor over the timeout scenario. -/
def supC1 : SupState WsClient :=
  { client := wsC1, lirc_connected := true, lirc_retry := 0, api_retry := 0,
    max_reconnect_delay := 64 }

/-- Supervisor over the connection-error scenario. -/
def supC1b : SupState WsClient :=
  { client := wsC1b, lirc_connected := true, lirc_retry := 0, api_retry := 0,
    max_reconnect_delay := 64 }

/-- C1 evaluated at its failing input.  The claim says every failure of the
correlated-response wait — timeout included — surfaces as
`UpstreamError`/`APIError`.  In the source, the bounded wait elapsing makes
`recv` raise the builtin `TimeoutError`, which is not a
`websockets.exceptions.WebSocketException`, so `send_upstream_event`'s
handler does not convert it: it reaches `main_loop`'s catch-all, the
source is disconnected, and the process exits fatally with code 1 —
while a genuine connection error on the same wait is converted to
`APIError` and handled by backoff-and-retry. -/
theorem claim_C1_code_bug :
    (ws_send_upstream_event { wsC1 with ws := true, inbox := [.timeoutErr] }
        "KEY_OK".toList).2 = .error .timeoutError
  ∧ (main_run ws_start_event_loop supC1 [.ev frameOK 5] [(true, 0)]).err
      = some .timeoutError
  ∧ main_exit_code (main_run ws_start_event_loop supC1 [.ev frameOK 5] [(true, 0)])
      = some 1
  ∧ (ws_send_upstream_event { wsC1 with ws := true, inbox := [.connClosed] }
        "KEY_OK".toList).2 = .error .apiError
  ∧ (main_run ws_start_event_loop supC1b [.ev frameOK 5] [(true, 0)]).err = none
  ∧ (main_run ws_start_event_loop supC1b [.ev frameOK 5] [(true, 0)]).state.api_retry
      = 1 := by
  refine ⟨rfl, rfl, rfl, rfl, rfl, rfl⟩

end Lirc2hass

namespace Lirc2hass

/-- Correlation ids carried by a list of sent messages (the `auth` message
has none). -/
def idsOf (l : List SentMsg) : List Nat := l.filterMap SentMsg.id

lemma ws_recv_msg_fields (st : WsClient) (mt : Option String) :
    (ws_recv_msg st mt).1.toLircBase = st.toLircBase
  ∧ (ws_recv_msg st mt).1.ws = st.ws
  ∧ (ws_recv_msg st mt).1.ws_next_id = st.ws_next_id
  ∧ (ws_recv_msg st mt).1.sent = st.sent := by
  unfold ws_recv_msg
  by_cases h : st.ws = false
  · simp [h]
  · rw [if_neg h]
    cases mt with
    | none =>
      cases hib : st.inbox with
      | nil => exact ⟨rfl, rfl, rfl, rfl⟩
      | cons x rest => cases x <;> exact ⟨rfl, rfl, rfl, rfl⟩
    | some t => exact ⟨rfl, rfl, rfl, rfl⟩

lemma ws_send_msg_auth_fields (st : WsClient) :
    (ws_send_msg st "auth" none false).1.toLircBase = st.toLircBase
  ∧ (ws_send_msg st "auth" none false).1.ws = st.ws
  ∧ (ws_send_msg st "auth" none false).1.ws_next_id = st.ws_next_id
  ∧ idsOf (ws_send_msg st "auth" none false).1.sent = idsOf st.sent := by
  unfold ws_send_msg
  by_cases h : st.ws = false
  · simp [h]
  · rw [if_neg h]
    refine ⟨rfl, rfl, rfl, ?_⟩
    show idsOf (st.sent ++ [⟨"auth", none⟩]) = idsOf st.sent
    simp [idsOf]

lemma ws_do_auth_pres (st : WsClient) :
    (ws_do_auth st).1.toLircBase = st.toLircBase
  ∧ (ws_do_auth st).1.ws = st.ws
  ∧ (ws_do_auth st).1.ws_next_id = st.ws_next_id
  ∧ idsOf (ws_do_auth st).1.sent = idsOf st.sent := by
  unfold ws_do_auth
  rcases hA : ws_recv_msg st (some "auth_required") with ⟨st1, r1⟩
  have f1 := ws_recv_msg_fields st (some "auth_required")
  rw [hA] at f1
  dsimp only at f1
  cases r1 with
  | error e => exact ⟨f1.1, f1.2.1, f1.2.2.1, by rw [f1.2.2.2]⟩
  | ok mA =>
    simp only []
    rcases hB : ws_send_msg st1 "auth" none false with ⟨st2, r2⟩
    have f2 := ws_send_msg_auth_fields st1
    rw [hB] at f2
    dsimp only at f2
    cases r2 with
    | error e =>
      exact ⟨f2.1.trans f1.1, f2.2.1.trans f1.2.1, f2.2.2.1.trans f1.2.2.1,
        f2.2.2.2.trans (by rw [f1.2.2.2])⟩
    | ok u =>
      simp only []
      rcases hC : ws_recv_msg st2 none with ⟨st3, r3⟩
      have f3 := ws_recv_msg_fields st2 none
      rw [hC] at f3
      dsimp only at f3
      have g1 : st3.toLircBase = st.toLircBase := (f3.1.trans f2.1).trans f1.1
      have g2 : st3.ws = st.ws := (f3.2.1.trans f2.2.1).trans f1.2.1
      have g3 : st3.ws_next_id = st.ws_next_id :=
        (f3.2.2.1.trans f2.2.2.1).trans f1.2.2.1
      have g4 : idsOf st3.sent = idsOf st.sent := by
        rw [f3.2.2.2]
        exact f2.2.2.2.trans (by rw [f1.2.2.2])
      cases r3 with
      | error e => exact ⟨g1, g2, g3, g4⟩
      | ok m =>
        simp only []
        by_cases hok : m.type = some "auth_ok"
        · rw [if_pos hok]
          exact ⟨g1, g2, g3, g4⟩
        · rw [if_neg hok]
          exact ⟨g1, g2, g3, g4⟩

lemma ws_send_msg_fire (st : WsClient) (h : st.ws = true) :
    ∃ ib2,
      (ws_send_msg st "fire_event" (some "result") true).1
        = { st with
            ws_next_id := st.ws_next_id + 1
            sent := st.sent ++ [⟨"fire_event", some st.ws_next_id⟩]
            inbox := ib2 } := by
  refine ⟨(recv_correlated_loop "result" (some st.ws_next_id) st.inbox).1, ?_⟩
  unfold ws_send_msg
  rw [h]
  cases hE : (recv_correlated_loop "result" (some st.ws_next_id) st.inbox).2 with
  | ok m => simp [hE]
  | error e => simp [hE]

lemma ws_send_upstream_shape (st : WsClient) (key : List Char) (h : st.ws = true) :
    ∃ ib2,
      (ws_send_upstream_event st key).1
        = { st with
            ws_next_id := st.ws_next_id + 1
            sent := st.sent ++ [⟨"fire_event", some st.ws_next_id⟩]
            inbox := ib2 } := by
  obtain ⟨ib2, hsm⟩ := ws_send_msg_fire st h
  unfold ws_send_upstream_event
  rcases hr : ws_send_msg st "fire_event" (some "result") true with ⟨st', r⟩
  rw [hr] at hsm
  dsimp only at hsm
  cases r with
  | ok m => exact ⟨ib2, hsm⟩
  | error e => cases e <;> exact ⟨ib2, hsm⟩

lemma ws_send_event_shape (st : WsClient) (ev : List Char) (now : ℚ)
    (h : st.ws = true) :
    (send_event ws_send_upstream_event st ev now).1 = st
  ∨ ∃ ib2,
      (send_event ws_send_upstream_event st ev now).1
        = { st with
            toLircBase := { st.toLircBase with last_event_timestamp := now }
            ws_next_id := st.ws_next_id + 1
            sent := st.sent ++ [⟨"fire_event", some st.ws_next_id⟩]
            inbox := ib2 } := by
  unfold send_event
  cases h1 : (pySplit ' ' 4 (str_of_event ev))[1]? with
  | none => left; simp [h1]
  | some f1 =>
    cases h2 : (pySplit ' ' 4 (str_of_event ev))[2]? with
    | none => left; simp [h1, h2]
    | some key =>
      simp only [h1, h2, base_ws, setBase_ws]
      split
      · left; rfl
      · right
        obtain ⟨ib2, hs⟩ := ws_send_upstream_shape
          { st with toLircBase := { st.toLircBase with last_event_timestamp := now } }
          key h
        exact ⟨ib2, hs⟩

end Lirc2hass

namespace Lirc2hass

lemma ws_event_loop_shape (src : List SrcItem) :
    ∀ st : WsClient, st.ws = true →
      (event_loop ws_send_upstream_event st src).1.ws = true
    ∧ (event_loop ws_send_upstream_event st src).1.api_connected = st.api_connected
    ∧ st.ws_next_id ≤ (event_loop ws_send_upstream_event st src).1.ws_next_id
    ∧ idsOf (event_loop ws_send_upstream_event st src).1.sent
        = idsOf st.sent ++ List.range' st.ws_next_id
            ((event_loop ws_send_upstream_event st src).1.ws_next_id - st.ws_next_id) := by
  induction src with
  | nil =>
    intro st h
    exact ⟨h, rfl, le_refl _, by simp [event_loop, List.range']⟩
  | cons item rest ih =>
    intro st h
    cases item with
    | readErr =>
      exact ⟨h, rfl, le_refl _, by simp [event_loop, List.range']⟩
    | ev data now =>
      by_cases hd : data = []
      · simp only [event_loop, if_pos hd]
        simp [h, List.range']
      · rcases hsend : send_event ws_send_upstream_event st data now with ⟨st', r⟩
        have hshape := ws_send_event_shape st data now h
        rw [hsend] at hshape
        dsimp only at hshape
        rcases hshape with heq | ⟨ib2, heq⟩
        · cases r with
          | ok u =>
            simp only [event_loop, if_neg hd, hsend]
            rw [heq]
            exact ih st h
          | error e =>
            simp only [event_loop, if_neg hd, hsend]
            rw [heq]
            simp [h, List.range']
        · have hws' : st'.ws = true := by
            rw [heq]
            exact h
          have hapi' : st'.api_connected = st.api_connected := by rw [heq]
          have hid' : st'.ws_next_id = st.ws_next_id + 1 := by rw [heq]
          have hids' : idsOf st'.sent = idsOf st.sent ++ [st.ws_next_id] := by
            rw [heq]
            show idsOf (st.sent ++ [⟨"fire_event", some st.ws_next_id⟩]) = _
            simp [idsOf]
          cases r with
          | ok u =>
            have hih := ih st' hws'
            simp only [event_loop, if_neg hd, hsend]
            have hle : st.ws_next_id
                ≤ (event_loop ws_send_upstream_event st' rest).1.ws_next_id := by
              have h2 := hih.2.2.1
              rw [hid'] at h2
              omega
            refine ⟨hih.1, hih.2.1.trans hapi', hle, ?_⟩
            rw [hih.2.2.2, hids', hid']
            have h2 := hih.2.2.1
            rw [hid'] at h2
            have hm : (event_loop ws_send_upstream_event st' rest).1.ws_next_id
                  - st.ws_next_id
                = ((event_loop ws_send_upstream_event st' rest).1.ws_next_id
                  - (st.ws_next_id + 1)) + 1 := by omega
            rw [hm, List.range'_succ]
            simp
          | error e =>
            simp only [event_loop, if_neg hd, hsend]
            refine ⟨hws', hapi', by rw [hid']; omega, ?_⟩
            rw [hids', hid']
            have hm : st.ws_next_id + 1 - st.ws_next_id = 1 := by omega
            rw [hm, List.range'_succ]
            simp [List.range']

end Lirc2hass

namespace Lirc2hass

/-- C4 (amended): within every session the correlation ids attached to
sent messages are the consecutive increasing integers starting at the
client's *current* `ws_next_id` — so they are unique within the session
and, because the counter is monotone and never reset across sessions,
never reused for the client's whole lifetime.  They start at 1 only for
the first session of a fresh client (`ws_next_id` is initialised to 1 in
`__init__` and not touched by `start_event_loop`); later sessions resume
where the previous one stopped. -/
theorem claim_C4 (st : WsClient) (src : List SrcItem) :
    idsOf (ws_start_event_loop st src).1.sent
      = List.range' st.ws_next_id
          ((ws_start_event_loop st src).1.ws_next_id - st.ws_next_id)
    ∧ (idsOf (ws_start_event_loop st src).1.sent).Nodup
    ∧ st.ws_next_id ≤ (ws_start_event_loop st src).1.ws_next_id := by
  suffices hmain : idsOf (ws_start_event_loop st src).1.sent
      = List.range' st.ws_next_id
          ((ws_start_event_loop st src).1.ws_next_id - st.ws_next_id)
    ∧ st.ws_next_id ≤ (ws_start_event_loop st src).1.ws_next_id by
    refine ⟨hmain.1, ?_, hmain.2⟩
    rw [hmain.1]
    exact List.nodup_range' _ _
  unfold ws_start_event_loop
  rcases hA : ws_do_auth (ws_connect_state st) with ⟨st1, r⟩
  have fA := ws_do_auth_pres (ws_connect_state st)
  rw [hA] at fA
  dsimp only at fA
  have hid1 : st1.ws_next_id = st.ws_next_id := fA.2.2.1.trans (ws_connect_state_id st)
  have hids1 : idsOf st1.sent = [] := by
    rw [fA.2.2.2, ws_connect_state_sent]
    rfl
  have hws1 : st1.ws = true := fA.2.1.trans (ws_connect_state_ws st)
  cases r with
  | error e =>
    constructor
    · rw [hids1, hid1]
      simp [List.range']
    · rw [hid1]
  | ok u =>
    simp only []
    have hsh := ws_event_loop_shape src
      { st1 with toLircBase := { st1.toLircBase with api_connected := true } } hws1
    have hidsF : idsOf ({ st1 with
        toLircBase := { st1.toLircBase with api_connected := true } } : WsClient).sent
        = [] := hids1
    have hidF : ({ st1 with
        toLircBase := { st1.toLircBase with api_connected := true } } : WsClient).ws_next_id
        = st.ws_next_id := hid1
    constructor
    · rw [hsh.2.2.2, hidsF, hidF]
      simp
    · rw [← hidF]
      exact hsh.2.2.1

/-- A websocket client whose first two sessions each authenticate and
deliver the correlated `result` for one forwarded key event. -/
def wsC4 : WsClient :=
  { wsFresh with future :=
      [[.msg ⟨some "auth_required", none⟩, .msg ⟨some "auth_ok", none⟩,
          .msg ⟨some "result", some 1⟩],
        [.msg ⟨some "auth_required", none⟩, .msg ⟨some "auth_ok", none⟩,
          .msg ⟨some "result", some 2⟩]]}

/-- C4 counterexample.  The claim asserts correlation ids start at 1
within *every* session.  `ws_next_id` belongs to the client object and is
never reset when `start_event_loop` opens a new session after a reconnect,
so the second session's only `fire_event` carries id 2, not 1. -/
theorem claim_C4_counterexample :
    idsOf (ws_start_event_loop (ws_start_event_loop wsC4 [.ev frameOK 5]).1
        [.ev frameOK 7]).1.sent = [2]
  ∧ idsOf (ws_start_event_loop (ws_start_event_loop wsC4 [.ev frameOK 5]).1
        [.ev frameOK 7]).1.sent ≠ [1] := by
  refine ⟨rfl, by decide⟩

end Lirc2hass

namespace Lirc2hass

/-- C8: in `main_loop`'s `APIError` handler, `api_retry` becomes 1 (a reset
to 0 followed by the shared increment) exactly when the client's
`api_connected` flag is set, and `old + 1` (no reset) otherwise; the flag
is set by an entry into the event loop — the base `start_event_loop` sets
it just before `event_loop`, which preserves it — and the websocket
variant's connect/auth phase leaves it untouched, so consecutive
`APIError`s raised before the event loop is re-entered (e.g. repeated auth
failures) keep incrementing the counter without resetting it. -/
theorem claim_C8 (s : SupState WsClient) (src src' : List SrcItem) (c' : WsClient)
    (connOk : Bool) (j : ℕ)
    (hconn : s.lirc_connected = true)
    (hrun : ws_start_event_loop s.client src = (c', src', some .apiError)) :
    (∃ s2, main_iter ws_start_event_loop s src connOk j
        = .next s2 src'
            (some (get_backoff_delay (if c'.api_connected then 0 else s.api_retry)
              s.max_reconnect_delay j))
      ∧ s2.api_retry = (if c'.api_connected then 0 else s.api_retry) + 1
      ∧ s2.lirc_connected = true)
  ∧ (∀ stA u, ws_do_auth (ws_connect_state s.client) = (stA, .ok u) →
      c'.api_connected = true)
  ∧ (∀ stA e, ws_do_auth (ws_connect_state s.client) = (stA, .error e) →
      c' = stA ∧ c'.api_connected = s.client.api_connected) := by
  refine ⟨?_, ?_, ?_⟩
  · have hiter0 : main_iter ws_start_event_loop s src connOk j
        = run_phase ws_start_event_loop s src j := by
      simp only [main_iter, connect_phase_connected s connOk j hconn]
    cases hapi : c'.toLircBase.api_connected with
    | false =>
      refine ⟨{ s with client := c', api_retry := s.api_retry + 1 },
        ?_, by simp [hapi], hconn⟩
      rw [hiter0]
      simp only [run_phase, hrun, base_ws, setBase_ws, hapi]
      simp
    | true =>
      refine ⟨{ s with
          client := { c' with toLircBase := { c'.toLircBase with api_connected := false } }
          api_retry := 0 + 1 },
        ?_, by simp [hapi], hconn⟩
      rw [hiter0]
      simp only [run_phase, hrun, base_ws, setBase_ws, hapi]
      simp
  · intro stA u hA
    unfold ws_start_event_loop at hrun
    rw [hA] at hrun
    simp only [] at hrun
    have fA := ws_do_auth_pres (ws_connect_state s.client)
    rw [hA] at fA
    dsimp only at fA
    have hwsA : stA.ws = true := fA.2.1.trans (ws_connect_state_ws _)
    have hsh := ws_event_loop_shape src
      { stA with toLircBase := { stA.toLircBase with api_connected := true } } hwsA
    have hc' : c' = (event_loop ws_send_upstream_event
        { stA with toLircBase := { stA.toLircBase with api_connected := true } } src).1 := by
      rw [hrun]
    rw [hc']
    exact hsh.2.1
  · intro stA e hA
    unfold ws_start_event_loop at hrun
    rw [hA] at hrun
    simp only [] at hrun
    have fA := ws_do_auth_pres (ws_connect_state s.client)
    rw [hA] at fA
    dsimp only at fA
    have h1 : stA = c' :=
      congrArg (fun p : WsClient × List SrcItem × Option PyExc => p.1) hrun
    have hb : stA.toLircBase = s.client.toLircBase :=
      fA.1.trans (ws_connect_state_base _)
    refine ⟨h1.symm, ?_⟩
    rw [← h1]
    exact congrArg LircBase.api_connected hb

/-- Supervisor over the failed-auth websocket scenario, mid-retry
(`api_connected` false, `api_retry` already 3). -/
def sup8 : SupState WsClient :=
  { client := wsFresh, lirc_connected := true, lirc_retry := 0, api_retry := 3,
    max_reconnect_delay := 64 }

/-- C8 witness: a session failing during auth (no event-loop entry) leaves
the retry counter un-reset: it goes from 3 to 4. -/
theorem claim_C8_witness :
    (∃ s2, main_iter ws_start_event_loop sup8 [.ev frameOK 5] true 0
        = .next s2 [.ev frameOK 5]
            (some (get_backoff_delay
              (if (ws_start_event_loop sup8.client [.ev frameOK 5]).1.api_connected then 0
                else sup8.api_retry)
              sup8.max_reconnect_delay 0))
      ∧ s2.api_retry
          = (if (ws_start_event_loop sup8.client [.ev frameOK 5]).1.api_connected then 0
              else sup8.api_retry) + 1
      ∧ s2.lirc_connected = true)
  ∧ (∀ stA u, ws_do_auth (ws_connect_state sup8.client) = (stA, .ok u) →
      (ws_start_event_loop sup8.client [.ev frameOK 5]).1.api_connected = true)
  ∧ (∀ stA e, ws_do_auth (ws_connect_state sup8.client) = (stA, .error e) →
      (ws_start_event_loop sup8.client [.ev frameOK 5]).1 = stA
      ∧ (ws_start_event_loop sup8.client [.ev frameOK 5]).1.api_connected
          = sup8.client.api_connected) :=
  claim_C8 sup8 [.ev frameOK 5] [.ev frameOK 5] _ true 0 rfl rfl

end Lirc2hass
